import Mathlib

/-!
Shallow embedding of the chunked-download engine in
`src/js/core/downloader.js` (class `Downloader`): the chunk planner
(`initChunkProgress`), the per-chunk transfer decision (`downloadChunk`),
the probe dispatch in `start`, the settle logic of `downloadChunks`,
`updateProgress`, `finish`, `handleError`, `pause`, `resume`, `cancel`.

Byte counts and timestamps are JavaScript numbers holding integers below
2^53, embedded as `Nat` (or `Int` where a JS subtraction can go negative);
the float division in the speed computation is embedded as `Rat`, which
preserves sign and order for the magnitudes involved.  Buffers
(`Uint8Array` blocks / `Blob`s) are lists of bytes.
-/

namespace DM

/-- Lifecycle states of a task: the string field `this.state` takes exactly
the values listed in the constructor comment. -/
inductive DState
  | in_progress
  | paused
  | complete
  | interrupted
deriving DecidableEq, Repr

/-- One entry of `this.chunkProgress`: `{index, start, end, downloaded,
completed, data}` as pushed by `initChunkProgress`.  The JS field `end` is a
Lean keyword, rendered `endPos`.  `data` is the array of received blocks. -/
structure ChunkRecord where
  index : Nat
  start : Nat
  endPos : Nat
  downloaded : Nat
  completed : Bool
  data : List (List Nat)
deriving DecidableEq, Repr

/-- The mutable fields of a `Downloader` instance that the modelled
operations read or write.  `aborted` models the abort state of each entry
of `this.abortControllers` (`true` once `abort()` was called). -/
structure Task where
  state : DState
  totalBytes : Nat
  bytesReceived : Nat
  speed : Rat
  chunkProgress : List ChunkRecord
  chunks : List (List Nat)
  aborted : List Bool
  lastSpeedUpdate : Nat
  lastBytesReceived : Nat
  supportsRange : Bool
deriving DecidableEq, Repr

/-- `Math.ceil(this.totalBytes / this.options.chunks)` for a positive chunk
count: exact ceiling division. -/
def chunkSizeOf (totalBytes chunks : Nat) : Nat :=
  (totalBytes + chunks - 1) / chunks

/-- The loop body of `initChunkProgress` (downloader.js lines 152-171):
record `i` spans `i * chunkSize` to `(i+1) * chunkSize - 1`, except the last
record which ends at `totalBytes - 1`. -/
def initChunks (totalBytes n : Nat) : List ChunkRecord :=
  (List.range n).map fun i =>
    { index := i
      start := i * chunkSizeOf totalBytes n
      endPos := if i = n - 1 then totalBytes - 1
                else (i + 1) * chunkSizeOf totalBytes n - 1
      downloaded := 0
      completed := false
      data := [] }

/-- `initChunkProgress` itself: skips when `chunkProgress` is already
populated (the resume case), otherwise plans `options.chunks` records and
one fresh `AbortController` per record. -/
def initChunkProgress (t : Task) (n : Nat) : Task :=
  if 0 < t.chunkProgress.length then t
  else { t with chunkProgress := initChunks t.totalBytes n
                aborted := List.replicate n false }

/-- Outcome of the HEAD metadata probe in `start`: either a response with a
status, an optional parsed `content-length` header and the raw
`accept-ranges` header, or a transport failure / timeout (the
`fetchWithTimeout` rejection). -/
inductive ProbeOutcome
  | response (status : Nat) (contentLength : Option Nat) (acceptRanges : Option String)
  | transportFailure
deriving DecidableEq, Repr

/-- The branch `start` proceeds to after the probe phase. -/
inductive StartPath
  | single
  | chunked
deriving DecidableEq, Repr

/-- `response.ok` of the Fetch API: status in the inclusive range 200-299. -/
def responseOk (status : Nat) : Bool :=
  200 ≤ status && status ≤ 299

/-- The probe phase of `start` (downloader.js lines 52-113).  A 401/403/405
status sets `headFailed`; any other thrown error — including the `throw` on
a non-ok status, which the surrounding inner `try` catches — also sets
`headFailed`; `headFailed` leads straight to `downloadSingle`.  On a
successful probe, `totalBytes` is parsed from `content-length` (default 0)
and `supportsRange` requires `accept-ranges` to equal exactly `bytes`;
chunked mode needs both `totalBytes > 0` and range support. -/
def startProbePhase (t : Task) (o : ProbeOutcome) : Task × StartPath :=
  match o with
  | .transportFailure => (t, .single)
  | .response status contentLength acceptRanges =>
    if status = 401 ∨ status = 403 ∨ status = 405 then (t, .single)
    else if !(responseOk status) then (t, .single)
    else
      let tb := contentLength.getD 0
      let sr := acceptRanges = some "bytes"
      let t1 := { t with totalBytes := tb, supportsRange := sr }
      if 0 < tb ∧ sr then (t1, .chunked) else (t1, .single)

/-- A probe outcome the spec calls a failure: a 401/403/405 response, any
other non-2xx response, or a transport failure / timeout. -/
def probeFailed : ProbeOutcome → Bool
  | .transportFailure => true
  | .response status _ _ => status == 401 || status == 403 || status == 405 || !(responseOk status)

/-- What `downloadChunk` does before touching the network. -/
inductive ChunkAction
  | skip
  | markComplete
  | request (rangeStart rangeEnd : Nat)
deriving DecidableEq, Repr

/-- The entry logic of `downloadChunk` (downloader.js lines 215-241): a
completed record is skipped; otherwise the request resumes at
`chunk.start + chunk.downloaded` up to `chunk.end`, and if that start
exceeds the end the record is marked completed with no request issued. -/
def downloadChunkPre (c : ChunkRecord) : ChunkRecord × ChunkAction :=
  if c.completed then (c, .skip)
  else if c.start + c.downloaded > c.endPos then
    ({ c with completed := true }, .markComplete)
  else
    (c, .request (c.start + c.downloaded) c.endPos)

/-- The status check of `downloadChunk` (downloader.js line 255):
`!response.ok && response.status !== 206` throws a chunk error. -/
def chunkResponseFatal (status : Nat) : Bool :=
  !(responseOk status) && status != 206

/-- A progress event as passed to `this.onProgress`. -/
structure ProgressEvent where
  bytesReceived : Nat
  totalBytes : Nat
  speed : Rat
  state : DState
deriving DecidableEq, Repr

/-- `updateProgress` (downloader.js lines 415-439): adds the delta to
`bytesReceived`; when more than 500 ms have passed since `lastSpeedUpdate`
it recomputes the speed from the byte delta, rolls the sample forward, and
emits a progress event; otherwise no event is emitted.  `now` is
`Date.now()`; the elapsed time is an `Int` because the JS subtraction is
signed. -/
def updateProgress (t : Task) (bytes : Nat) (now : Nat) : Task × Option ProgressEvent :=
  let t1 := { t with bytesReceived := t.bytesReceived + bytes }
  let timeDiff : Int := (now : Int) - (t1.lastSpeedUpdate : Int)
  if timeDiff > 500 then
    let bytesDiff : Int := (t1.bytesReceived : Int) - (t1.lastBytesReceived : Int)
    let speed : Rat := (bytesDiff : Rat) * 1000 / (timeDiff : Rat)
    let t2 := { t1 with speed := speed
                        lastSpeedUpdate := now
                        lastBytesReceived := t1.bytesReceived }
    (t2, some { bytesReceived := t2.bytesReceived
                totalBytes := t2.totalBytes
                speed := speed
                state := t2.state })
  else
    (t1, none)

/-- Replace the record at position `i`, leaving the list unchanged when `i`
is out of range — the JS mutation `this.chunkProgress[index]`. -/
def modifyNth (f : ChunkRecord → ChunkRecord) : Nat → List ChunkRecord → List ChunkRecord
  | _, [] => []
  | 0, c :: cs => f c :: cs
  | n + 1, c :: cs => c :: modifyNth f n cs

/-- The read-loop body of `downloadChunk` (downloader.js lines 263-287):
push the block onto `chunkInfo.data`, add its length to
`chunkInfo.downloaded`, then call `updateProgress` with the block length. -/
def pushBlock (block : List Nat) (c : ChunkRecord) : ChunkRecord :=
  { c with data := c.data ++ [block], downloaded := c.downloaded + block.length }

/-- One streaming step of chunk `i`. -/
def receiveChunkBlock (t : Task) (i : Nat) (block : List Nat) (now : Nat) :
    Task × Option ProgressEvent :=
  updateProgress { t with chunkProgress := modifyNth (pushBlock block) i t.chunkProgress }
    block.length now

/-- The read-loop body of `downloadSingle` (downloader.js lines 358-383):
push the block onto the local buffer list and call `updateProgress`.  The
local buffer is threaded explicitly. -/
def receiveSingleBlock (t : Task) (buf : List (List Nat)) (block : List Nat) (now : Nat) :
    (Task × List (List Nat)) × Option ProgressEvent :=
  let r := updateProgress t block.length now
  ((r.1, buf ++ [block]), r.2)

/-- `finish` (downloader.js lines 442-459): set the state to `complete`,
zero the speed, and merge `this.chunks` into the final blob.  No check of
any chunk buffer against its declared range is performed. -/
def finish (t : Task) : Task :=
  { t with state := .complete, speed := 0 }

/-- The final blob built by `finish`: `new Blob(this.chunks)`. -/
def mergedArtifact (t : Task) : List Nat :=
  t.chunks.flatten

/-- `handleError` (downloader.js lines 462-507): an `AbortError` while
paused is swallowed; anything else sets the state to `interrupted`.  No
other modelled field is touched. -/
def handleError (t : Task) (isAbort : Bool) : Task :=
  if isAbort && decide (t.state = .paused) then t
  else { t with state := .interrupted }

/-- The post-`allSettled` logic of `downloadChunks` (downloader.js lines
182-211): when paused, return; when any chunk promise rejected, the
re-thrown error reaches `handleError` (not an abort); when every record is
completed, `finish`; otherwise just warn and return. -/
def downloadChunksSettle (t : Task) (anyRejected : Bool) : Task :=
  if t.state = .paused then t
  else if anyRejected then handleError t false
  else if t.chunkProgress.all (·.completed) then finish t
  else t

/-- `pause` (downloader.js lines 510-534): only acts on a running task; it
aborts every controller and then replaces each with a fresh (un-aborted)
one, so the `aborted` flags end all false. -/
def pause (t : Task) : Task :=
  if t.state = .in_progress then
    { t with state := .paused, aborted := t.aborted.map fun _ => false }
  else t

/-- `resume` (downloader.js lines 537-560): only acts on a paused task.
With range support and existing chunk records it re-enters
`downloadChunks`, changing no counter; otherwise it resets `bytesReceived`
to 0, discards the chunk blobs, and re-runs `start`.  Note that
`lastBytesReceived` is not reset on the restart path. -/
def resume (t : Task) : Task :=
  if t.state = .paused then
    let t1 := { t with state := .in_progress }
    if t1.supportsRange && decide (0 < t1.chunkProgress.length) then t1
    else { t1 with bytesReceived := 0, chunks := [] }
  else t

/-- `cancel` (downloader.js lines 563-572): unconditionally set the state
to `interrupted` and abort every controller. -/
def cancel (t : Task) : Task :=
  { t with state := .interrupted, aborted := t.aborted.map fun _ => true }

/-- Sum of `chunk.downloaded` over all chunk records. -/
def sumDownloaded (t : Task) : Nat :=
  (t.chunkProgress.map (·.downloaded)).sum

/-- Bytes held in a chunk record's buffer. -/
def bufferLen (c : ChunkRecord) : Nat :=
  (c.data.map List.length).sum

/-- Bytes a chunk record's declared range requires. -/
def rangeLen (c : ChunkRecord) : Nat :=
  c.endPos - c.start + 1

theorem initChunks_get (L N i : Nat) (h : i < N) :
    (initChunks L N).get? i = some
      { index := i, start := i * chunkSizeOf L N,
        endPos := if i = N - 1 then L - 1 else (i + 1) * chunkSizeOf L N - 1,
        downloaded := 0, completed := false, data := [] } := by
  rw [initChunks, List.get?_eq_getElem?, List.getElem?_map, List.getElem?_range h]
  rfl

theorem initChunks_length (L N : Nat) : (initChunks L N).length = N := by
  simp [initChunks]

theorem chunkSizeOf_pos (L N : Nat) (hL : 0 < L) (hN : 1 ≤ N) : 0 < chunkSizeOf L N := by
  unfold chunkSizeOf
  exact Nat.div_pos (by omega) (by omega)

/-- C1 counterexample: at totalBytes 5 with chunk count 4 the planner's
chunk size is `ceil(5/4) = 2` and the last record gets `start = 6` but
`end = 4`, so the records do not satisfy `start <= end`, let alone
partition `[0, 4]`. -/
theorem c1_counterexample :
    ¬ (∀ c ∈ initChunks 5 4, c.start ≤ c.endPos) := by
  decide

/-- C1 (amended): for totalBytes L > 0 and chunk count N >= 1 such that the
last chunk's start fits below the end of the file — `(N-1) * ceil(L/N) <=
L-1`, which holds for example whenever `L > N*(N-1)` and fails for small
files such as L = 5, N = 4 — the records produced by `initChunkProgress`
partition `[0, L-1]`: each satisfies `start <= end` and
`downloaded <= end - start + 1`, consecutive records satisfy
`chunk[i].end + 1 = chunk[i+1].start`, and the final record ends at
`L - 1`, absorbing the integer-division remainder. -/
theorem c1_chunk_partition (L N : Nat) (hL : 0 < L) (hN : 1 ≤ N)
    (hfit : (N - 1) * chunkSizeOf L N ≤ L - 1) :
    (∀ c ∈ initChunks L N, c.start ≤ c.endPos ∧ c.downloaded ≤ c.endPos - c.start + 1)
    ∧ (∀ i c c2, (initChunks L N).get? i = some c →
        (initChunks L N).get? (i + 1) = some c2 → c.endPos + 1 = c2.start)
    ∧ (∀ c, (initChunks L N).get? (N - 1) = some c → c.endPos = L - 1) := by
  have hq := chunkSizeOf_pos L N hL hN
  refine ⟨?_, ?_, ?_⟩
  · intro c hc
    rw [initChunks] at hc
    obtain ⟨i, hi, rfl⟩ := List.mem_map.1 hc
    rw [List.mem_range] at hi
    by_cases hlast : i = N - 1
    · subst hlast
      simp only [if_pos rfl]
      exact ⟨hfit, Nat.zero_le _⟩
    · simp only [if_neg hlast]
      have hmul : (i + 1) * chunkSizeOf L N = i * chunkSizeOf L N + chunkSizeOf L N := by
        ring
      exact ⟨by omega, Nat.zero_le _⟩
  · intro i c c2 h1 h2
    have hlt2 : i + 1 < N := by
      by_contra hcon
      have hnone : (initChunks L N).get? (i + 1) = none := by
        rw [List.get?_eq_none, initChunks_length]
        omega
      rw [hnone] at h2
      exact Option.noConfusion h2
    have hlt1 : i < N := by omega
    rw [initChunks_get L N i hlt1] at h1
    rw [initChunks_get L N (i + 1) hlt2] at h2
    have hne : i ≠ N - 1 := by omega
    have hc := Option.some.inj h1
    have hc2 := Option.some.inj h2
    subst hc
    subst hc2
    simp only [if_neg hne]
    have hpos : 0 < (i + 1) * chunkSizeOf L N := Nat.mul_pos (Nat.succ_pos i) hq
    omega
  · intro c h
    have hlt : N - 1 < N := by omega
    rw [initChunks_get L N (N - 1) hlt] at h
    have hc := Option.some.inj h
    subst hc
    simp

/-- Witness for the amended C1 at L = 8, N = 4: the fit hypothesis holds
and the four records partition `[0, 7]`. -/
theorem c1_witness :
    (0 < 8 ∧ 1 ≤ 4 ∧ (4 - 1) * chunkSizeOf 8 4 ≤ 8 - 1)
    ∧ ((∀ c ∈ initChunks 8 4, c.start ≤ c.endPos ∧ c.downloaded ≤ c.endPos - c.start + 1)
       ∧ (∀ i c c2, (initChunks 8 4).get? i = some c →
           (initChunks 8 4).get? (i + 1) = some c2 → c.endPos + 1 = c2.start)
       ∧ (∀ c, (initChunks 8 4).get? (4 - 1) = some c → c.endPos = 8 - 1)) :=
  ⟨⟨by decide, by decide, by decide⟩,
   c1_chunk_partition 8 4 (by decide) (by decide) (by decide)⟩

/-- C2 counterexample: for a 10,000,000-byte resource with chunk count 4
the planner's chunk size is `ceil(10000000/4) = 2500000`, so the produced
ranges are not the spec's `0-2621439`, `2621440-5242879`, `5242880-7864319`,
`7864320-9999999` (those boundaries belong to a 10 MiB = 10,485,760-byte
resource). -/
theorem c2_counterexample :
    ¬ (((initChunks 10000000 4).map fun c => (c.start, c.endPos))
        = [(0, 2621439), (2621440, 5242879), (5242880, 7864319), (7864320, 9999999)]) := by
  decide

/-- C2 (amended): for a 10,000,000-byte resource with range support and
chunk count 4 the planner produces exactly the four byte ranges
`0-2499999`, `2500000-4999999`, `5000000-7499999`, `7500000-9999999`, and
their sizes sum to exactly 10,000,000 bytes — the length of the merged
artifact once every chunk delivers its full range. -/
theorem c2_ten_mb_plan :
    (initChunks 10000000 4).length = 4
    ∧ ((initChunks 10000000 4).map fun c => (c.start, c.endPos))
        = [(0, 2499999), (2500000, 4999999), (5000000, 7499999), (7500000, 9999999)]
    ∧ ((initChunks 10000000 4).map rangeLen).sum = 10000000 := by
  refine ⟨by decide, by decide, by decide⟩

/-- C3: `downloadChunk` on a record that is not yet completed issues a
ranged request from `chunk.start + chunk.downloaded` to `chunk.end`, and
when that start exceeds the end it instead marks the record completed at
once and returns without any request. -/
theorem c3_download_chunk_entry (c : ChunkRecord) (h : c.completed = false) :
    (c.start + c.downloaded ≤ c.endPos →
      downloadChunkPre c = (c, .request (c.start + c.downloaded) c.endPos))
    ∧ (c.start + c.downloaded > c.endPos →
      downloadChunkPre c = ({ c with completed := true }, .markComplete)) := by
  refine ⟨fun hle => ?_, fun hgt => ?_⟩
  · unfold downloadChunkPre
    rw [if_neg (by simp [h]), if_neg (by omega)]
  · unfold downloadChunkPre
    rw [if_neg (by simp [h]), if_pos hgt]

/-- Concrete incomplete record for the C3 witness: resumes at byte 5. -/
def cC3incomplete : ChunkRecord :=
  { index := 0, start := 3, endPos := 9, downloaded := 2, completed := false, data := [[1, 1]] }

/-- Concrete over-downloaded record for the C3 witness: start 5 plus
downloaded 5 passes end 9. -/
def cC3overrun : ChunkRecord :=
  { index := 1, start := 5, endPos := 9, downloaded := 5, completed := false, data := [] }

/-- Witness for C3: the resumed request range is 5-9, and the over-run
record is marked completed with no request. -/
theorem c3_witness :
    downloadChunkPre cC3incomplete = (cC3incomplete, .request 5 9)
    ∧ downloadChunkPre cC3overrun = ({ cC3overrun with completed := true }, .markComplete) :=
  ⟨(c3_download_chunk_entry cC3incomplete rfl).1 (by decide),
   (c3_download_chunk_entry cC3overrun rfl).2 (by decide)⟩

/-- C4: every failed probe outcome — a 401, 403 or 405 response, any other
non-2xx response, or a transport failure / timeout — makes `start` proceed
to the single-stream fallback, leaving the lifecycle state untouched (the
task is not interrupted on account of the probe alone). -/
theorem c4_probe_failure_falls_back (t : Task) (o : ProbeOutcome)
    (h : probeFailed o = true) :
    (startProbePhase t o).2 = .single ∧ (startProbePhase t o).1.state = t.state := by
  cases o with
  | transportFailure => exact ⟨rfl, rfl⟩
  | response status contentLength acceptRanges =>
    have hmain : startProbePhase t (.response status contentLength acceptRanges)
        = (t, StartPath.single) := by
      by_cases h45 : status = 401 ∨ status = 403 ∨ status = 405
      · simp only [startProbePhase, if_pos h45]
      · have hok : responseOk status = false := by
          simp only [probeFailed, Bool.or_eq_true, beq_iff_eq] at h
          rcases h with (((h | h) | h) | h)
          · exact absurd (Or.inl h) h45
          · exact absurd (Or.inr (Or.inl h)) h45
          · exact absurd (Or.inr (Or.inr h)) h45
          · simpa using h
        simp only [startProbePhase, if_neg h45, hok, Bool.not_false, if_true]
    rw [hmain]
    exact ⟨rfl, rfl⟩

/-- Concrete task for the C4 witness. -/
def tC4 : Task :=
  { state := .in_progress, totalBytes := 0, bytesReceived := 0, speed := 0,
    chunkProgress := [], chunks := [], aborted := [],
    lastSpeedUpdate := 0, lastBytesReceived := 0, supportsRange := false }

/-- Witness for C4 at a 405 probe response: the dispatch is the
single-stream fallback and the state is untouched. -/
theorem c4_witness :
    (startProbePhase tC4 (.response 405 none none)).2 = .single
    ∧ (startProbePhase tC4 (.response 405 none none)).1.state = tC4.state :=
  c4_probe_failure_falls_back tC4 (.response 405 none none) (by decide)

/-- C5 counterexample: the chunk status check is
`!response.ok && status !== 206`, and `response.ok` covers the whole 2xx
range, so a 204 response — whose status is neither 200 nor 206 — is not
treated as a hard failure, contradicting the claim. -/
theorem c5_counterexample :
    chunkResponseFatal 204 = false ∧ ¬(204 = 200 ∨ 204 = 206) := by
  decide

/-- C5 (amended): a chunk response is fatal exactly when its status is
outside the 2xx range (every 2xx status, not just 200 and 206, is
accepted); on such a fatal chunk the rejected promise drives
`downloadChunks` into `handleError`, which marks the running task
`interrupted` while every sibling chunk record, the byte counter and the
buffered blobs are retained unchanged. -/
theorem c5_chunk_http_error (status : Nat) (t : Task)
    (hs : responseOk status = false) (ht : t.state = .in_progress) :
    chunkResponseFatal status = true
    ∧ (downloadChunksSettle t true).state = .interrupted
    ∧ (downloadChunksSettle t true).chunkProgress = t.chunkProgress
    ∧ (downloadChunksSettle t true).bytesReceived = t.bytesReceived
    ∧ (downloadChunksSettle t true).chunks = t.chunks := by
  have h206 : status ≠ 206 := by
    intro hc
    subst hc
    simp [responseOk] at hs
  have hset : downloadChunksSettle t true = { t with state := .interrupted } := by
    unfold downloadChunksSettle handleError
    rw [if_neg (by rw [ht]; exact fun hc => DState.noConfusion hc)]
    rw [if_pos rfl, if_neg (by rw [ht]; simp)]
  refine ⟨?_, ?_, ?_, ?_, ?_⟩
  · simp [chunkResponseFatal, hs, h206]
  · rw [hset]
  · rw [hset]
  · rw [hset]
  · rw [hset]

/-- Concrete running task with sibling progress for the C5 witness. -/
def tC5 : Task :=
  { state := .in_progress, totalBytes := 8, bytesReceived := 3, speed := 0,
    chunkProgress :=
      [{ index := 0, start := 0, endPos := 3, downloaded := 3, completed := false,
         data := [[1, 2, 3]] },
       { index := 1, start := 4, endPos := 7, downloaded := 0, completed := false,
         data := [] }],
    chunks := [], aborted := [false, false],
    lastSpeedUpdate := 0, lastBytesReceived := 0, supportsRange := true }

/-- Witness for the amended C5 at status 500: the chunk is fatal, the task
ends interrupted, and the sibling progress is untouched. -/
theorem c5_witness :
    chunkResponseFatal 500 = true
    ∧ (downloadChunksSettle tC5 true).state = .interrupted
    ∧ (downloadChunksSettle tC5 true).chunkProgress = tC5.chunkProgress
    ∧ (downloadChunksSettle tC5 true).bytesReceived = tC5.bytesReceived
    ∧ (downloadChunksSettle tC5 true).chunks = tC5.chunks :=
  c5_chunk_http_error 500 tC5 (by decide) rfl

/-- Concrete task for the C6 counterexample: both chunk records are marked
completed, but chunk 1 buffered only one of the two bytes of its declared
range `[2, 3]`. -/
def tC6short : Task :=
  { state := .in_progress, totalBytes := 4, bytesReceived := 3, speed := 0,
    chunkProgress :=
      [{ index := 0, start := 0, endPos := 1, downloaded := 2, completed := true,
         data := [[10, 11]] },
       { index := 1, start := 2, endPos := 3, downloaded := 1, completed := true,
         data := [[12]] }],
    chunks := [[10, 11], [12]], aborted := [false, false],
    lastSpeedUpdate := 0, lastBytesReceived := 0, supportsRange := true }

/-- C6 counterexample: a chunk marked completed with fewer buffered bytes
than its declared range does not fail the task — `downloadChunks` sees all
records completed and calls `finish`, which merges the short buffers and
leaves the task `complete` with a 3-byte artifact for a 4-byte resource. -/
theorem c6_counterexample :
    (∃ c ∈ tC6short.chunkProgress, c.completed = true ∧ bufferLen c < rangeLen c)
    ∧ (downloadChunksSettle tC6short false).state = .complete
    ∧ (mergedArtifact (downloadChunksSettle tC6short false)).length < tC6short.totalBytes := by
  refine ⟨?_, ?_, ?_⟩
  · decide
  · decide
  · decide

/-- C6 (amended): in chunked mode the merger runs only once every chunk
record reports completed — `downloadChunks` reaches `finish` only when no
chunk rejected, the task is not paused, and all records are completed —
but no gap check is performed: `finish` marks the task `complete` and
merges the buffers as they are, even when a completed chunk holds fewer
bytes than its declared range. -/
theorem c6_merge_gate (t : Task) (anyRejected : Bool) :
    (t.state ≠ .complete → (downloadChunksSettle t anyRejected).state = .complete →
      anyRejected = false ∧ t.chunkProgress.all (·.completed) = true)
    ∧ (t.state = .in_progress → anyRejected = false →
        t.chunkProgress.all (·.completed) = true →
        downloadChunksSettle t anyRejected = finish t)
    ∧ (finish t).state = .complete
    ∧ mergedArtifact (finish t) = t.chunks.flatten := by
  refine ⟨?_, ?_, rfl, rfl⟩
  · intro hne hcomp
    unfold downloadChunksSettle at hcomp
    by_cases hp : t.state = .paused
    · rw [if_pos hp] at hcomp
      exact absurd hcomp hne
    · rw [if_neg hp] at hcomp
      by_cases hr : anyRejected = true
      · rw [if_pos hr] at hcomp
        unfold handleError at hcomp
        rw [if_neg (by simp [hp])] at hcomp
        exact absurd hcomp (fun hc => DState.noConfusion hc)
      · by_cases hall : t.chunkProgress.all (·.completed) = true
        · exact ⟨by simpa using hr, hall⟩
        · rw [if_neg hr, if_neg (by simpa using hall)] at hcomp
          exact absurd hcomp hne
  · intro hst hr hall
    subst hr
    unfold downloadChunksSettle
    rw [if_neg (by rw [hst]; exact fun hc => DState.noConfusion hc)]
    rw [if_neg (by simp), if_pos hall]

/-- Concrete fully-completed task for the C6 witness. -/
def tC6full : Task :=
  { state := .in_progress, totalBytes := 4, bytesReceived := 4, speed := 0,
    chunkProgress :=
      [{ index := 0, start := 0, endPos := 1, downloaded := 2, completed := true,
         data := [[10, 11]] },
       { index := 1, start := 2, endPos := 3, downloaded := 2, completed := true,
         data := [[12, 13]] }],
    chunks := [[10, 11], [12, 13]], aborted := [false, false],
    lastSpeedUpdate := 0, lastBytesReceived := 0, supportsRange := true }

/-- Witness for the amended C6: a running task with every record completed
settles into `finish`, which marks it complete. -/
theorem c6_witness :
    downloadChunksSettle tC6full false = finish tC6full
    ∧ (finish tC6full).state = .complete :=
  ⟨(c6_merge_gate tC6full false).2.1 rfl rfl (by decide),
   (c6_merge_gate tC6full false).2.2.1⟩

/-- Concrete completed task for the C7 counterexample. -/
def tC7complete : Task :=
  { state := .complete, totalBytes := 4, bytesReceived := 4, speed := 0,
    chunkProgress := [], chunks := [[1, 2, 3, 4]], aborted := [false],
    lastSpeedUpdate := 0, lastBytesReceived := 0, supportsRange := false }

/-- C7 counterexample: `cancel` is unguarded — called on a task already in
the terminal state `complete` it is not a no-op: it moves the task to
`interrupted`, so the task does transition out of `complete`. -/
theorem c7_counterexample :
    tC7complete.state = .complete ∧ (cancel tC7complete).state = .interrupted := by
  exact ⟨rfl, rfl⟩

/-- C7 (amended): `pause()` and `resume()` are idempotent no-ops when their
transition does not apply, leaving the task entirely unchanged; `cancel()`
however always sets the state to `interrupted` regardless of the current
state — a lifecycle no-op only on an already-interrupted task, while even a
`complete` task is moved to `interrupted`. -/
theorem c7_lifecycle_guards (t : Task) :
    (t.state ≠ .in_progress → pause t = t)
    ∧ (t.state ≠ .paused → resume t = t)
    ∧ (cancel t).state = .interrupted
    ∧ (t.state = .interrupted → (cancel t).state = t.state) := by
  refine ⟨fun h => ?_, fun h => ?_, rfl, fun h => ?_⟩
  · unfold pause
    rw [if_neg h]
  · unfold resume
    rw [if_neg h]
  · rw [h]
    rfl

/-- Concrete paused task for the C7 witness. -/
def tC7paused : Task :=
  { state := .paused, totalBytes := 4, bytesReceived := 2, speed := 0,
    chunkProgress := [], chunks := [], aborted := [false],
    lastSpeedUpdate := 0, lastBytesReceived := 0, supportsRange := false }

/-- Witness for the amended C7: pausing a paused task and resuming a
complete task are no-ops, and cancelling yields `interrupted`. -/
theorem c7_witness :
    pause tC7paused = tC7paused
    ∧ resume tC7complete = tC7complete
    ∧ (cancel tC7paused).state = .interrupted :=
  ⟨(c7_lifecycle_guards tC7paused).1 (by decide),
   (c7_lifecycle_guards tC7complete).2.1 (by decide),
   (c7_lifecycle_guards tC7paused).2.2.1⟩

/-- Concrete paused non-range task for the C8 counterexample: 1000 bytes
had been received and sampled (`lastBytesReceived = 1000`) before the
pause. -/
def tC8resume : Task :=
  { state := .paused, totalBytes := 2000, bytesReceived := 1000, speed := 0,
    chunkProgress := [], chunks := [[1]], aborted := [false],
    lastSpeedUpdate := 0, lastBytesReceived := 1000, supportsRange := false }

/-- C8 counterexample: resuming a non-range task resets `bytesReceived` to
0 but not `lastBytesReceived`, so the next emission past the 500 ms
throttle computes a negative byte delta and carries a negative speed —
emitted speeds are not always >= 0. -/
theorem c8_counterexample :
    ∃ e, (updateProgress (resume tC8resume) 10 601).2 = some e ∧ e.speed < 0 := by
  have hres :
      resume tC8resume
        = { state := .in_progress, totalBytes := 2000, bytesReceived := 0,
            speed := 0, chunkProgress := [], chunks := [], aborted := [false],
            lastSpeedUpdate := 0, lastBytesReceived := 1000, supportsRange := false } :=
    rfl
  rw [hres]
  refine ⟨_, rfl, ?_⟩
  norm_num

/-- C8 (amended): an emission happens only when strictly more than 500 ms
have elapsed since `lastSpeedUpdate`, which each emission rolls forward to
the current time, so consecutive emissions are separated by more than
500 ms; zero elapsed time yields no emission (no division by zero); and the
emitted speed is >= 0 provided the byte counter has not dropped below the
last sample — a proviso the code violates right after a non-range resume,
which resets `bytesReceived` without resetting `lastBytesReceived`. -/
theorem c8_progress_throttle (t : Task) (bytes now : Nat) :
    (∀ e, (updateProgress t bytes now).2 = some e →
      ((500 : Int) < (now : Int) - (t.lastSpeedUpdate : Int)
       ∧ (updateProgress t bytes now).1.lastSpeedUpdate = now
       ∧ (t.lastBytesReceived ≤ t.bytesReceived + bytes → 0 ≤ e.speed)))
    ∧ (now = t.lastSpeedUpdate → (updateProgress t bytes now).2 = none) := by
  constructor
  · intro e he
    by_cases hc : (500 : Int) < (now : Int) - (t.lastSpeedUpdate : Int)
    · refine ⟨hc, ?_, ?_⟩
      · unfold updateProgress
        dsimp only
        rw [if_pos (by simpa using hc)]
      · intro hb
        unfold updateProgress at he
        dsimp only at he
        rw [if_pos (by simpa using hc)] at he
        have hee := Option.some.inj he
        subst hee
        dsimp only
        have h1 : (0 : Int) ≤ ((t.bytesReceived + bytes : Nat) : Int)
            - (t.lastBytesReceived : Int) := by
          omega
        have h2 : (0 : Int) ≤ (now : Int) - (t.lastSpeedUpdate : Int) := by
          omega
        exact div_nonneg (mul_nonneg (by exact_mod_cast h1) (by norm_num))
          (by exact_mod_cast h2)
    · unfold updateProgress at he
      dsimp only at he
      rw [if_neg (by simpa using hc)] at he
      exact Option.noConfusion he
  · intro h0
    unfold updateProgress
    dsimp only
    rw [if_neg (by rw [h0]; simp)]

/-- Concrete running task for the C8 witness. -/
def tC8plain : Task :=
  { state := .in_progress, totalBytes := 1000, bytesReceived := 0, speed := 0,
    chunkProgress := [], chunks := [], aborted := [],
    lastSpeedUpdate := 42, lastBytesReceived := 0, supportsRange := false }

/-- Witness for the amended C8: calling `updateProgress` at the very
timestamp of the last sample emits nothing, and the event emitted at
`now = 600` (558 ms elapsed, 100 fresh bytes) carries a non-negative
speed. -/
theorem c8_witness :
    (updateProgress tC8plain 100 42).2 = none
    ∧ (∀ e, (updateProgress tC8plain 100 600).2 = some e → 0 ≤ e.speed) :=
  ⟨(c8_progress_throttle tC8plain 100 42).2 rfl,
   fun e he => ((c8_progress_throttle tC8plain 100 600).1 e he).2.2 (by decide)⟩

theorem updateProgress_fst_bytes (t : Task) (b now : Nat) :
    (updateProgress t b now).1.bytesReceived = t.bytesReceived + b := by
  unfold updateProgress
  dsimp only
  split <;> rfl

theorem updateProgress_fst_chunkProgress (t : Task) (b now : Nat) :
    (updateProgress t b now).1.chunkProgress = t.chunkProgress := by
  unfold updateProgress
  dsimp only
  split <;> rfl

theorem sumDownloaded_modifyNth (l : List ChunkRecord) (i : Nat) (block : List Nat)
    (h : i < l.length) :
    ((modifyNth (pushBlock block) i l).map (·.downloaded)).sum
      = (l.map (·.downloaded)).sum + block.length := by
  induction l generalizing i with
  | nil => simp at h
  | cons c cs ih =>
    cases i with
    | zero =>
      simp only [modifyNth, pushBlock, List.map_cons, List.sum_cons]
      omega
    | succ n =>
      simp only [modifyNth, List.map_cons, List.sum_cons]
      rw [ih n (by simpa using h)]
      omega

/-- C9: the byte-counter invariant `task.bytesReceived = Σ chunk.downloaded`
is preserved by every chunked progress update (the read loop adds the block
length to both sides in lockstep); a resume with range support and existing
chunk records changes neither side; a resume without range support resets
`bytesReceived` to 0 and discards the buffers, matching the restarted
fallback stream's counter; and in fallback mode each progress update keeps
`bytesReceived` equal to the stream's accumulated byte count. -/
theorem c9_bytes_invariant (t : Task) (i : Nat) (block : List Nat) (now : Nat) :
    (t.bytesReceived = sumDownloaded t → i < t.chunkProgress.length →
      (receiveChunkBlock t i block now).1.bytesReceived
        = sumDownloaded (receiveChunkBlock t i block now).1)
    ∧ (t.state = .paused → t.supportsRange = true → 0 < t.chunkProgress.length →
        (resume t).bytesReceived = t.bytesReceived
        ∧ (resume t).chunkProgress = t.chunkProgress)
    ∧ (t.state = .paused → (t.supportsRange = false ∨ t.chunkProgress.length = 0) →
        (resume t).bytesReceived = 0 ∧ (resume t).chunks = [])
    ∧ (∀ buf, t.bytesReceived = ((buf.map List.length).sum) →
        (receiveSingleBlock t buf block now).1.1.bytesReceived
          = ((((receiveSingleBlock t buf block now).1.2).map List.length).sum)) := by
  refine ⟨?_, ?_, ?_, ?_⟩
  · intro hinv hlen
    unfold receiveChunkBlock
    rw [updateProgress_fst_bytes]
    unfold sumDownloaded
    rw [updateProgress_fst_chunkProgress]
    unfold sumDownloaded at hinv
    have hsum := sumDownloaded_modifyNth t.chunkProgress i block (by simpa using hlen)
    dsimp only
    rw [hsum]
    omega
  · intro hp hsr hlen
    unfold resume
    rw [if_pos hp, if_pos (by simp [hsr, hlen])]
    exact ⟨rfl, rfl⟩
  · intro hp hd
    unfold resume
    rw [if_pos hp, if_neg ?_]
    · exact ⟨rfl, rfl⟩
    · rcases hd with h | h <;> simp [h]
  · intro buf hinv
    unfold receiveSingleBlock
    dsimp only
    rw [updateProgress_fst_bytes, hinv]
    simp

/-- Concrete chunked task satisfying the invariant, for the C9 witness. -/
def tC9 : Task :=
  { state := .in_progress, totalBytes := 10, bytesReceived := 3, speed := 0,
    chunkProgress :=
      [{ index := 0, start := 0, endPos := 4, downloaded := 3, completed := false,
         data := [[7, 8, 9]] },
       { index := 1, start := 5, endPos := 9, downloaded := 0, completed := false,
         data := [] }],
    chunks := [], aborted := [false, false],
    lastSpeedUpdate := 0, lastBytesReceived := 0, supportsRange := true }

/-- Witness for C9: receiving a 2-byte block on chunk 0 keeps
`bytesReceived` equal to the sum of the per-chunk `downloaded` counters. -/
theorem c9_witness :
    (receiveChunkBlock tC9 0 [5, 6] 100).1.bytesReceived
      = sumDownloaded (receiveChunkBlock tC9 0 [5, 6] 100).1 :=
  (c9_bytes_invariant tC9 0 [5, 6] 100).1 (by decide) (by decide)

/-- C10: `cancel` mutates only the lifecycle state (to `interrupted`) and
aborts every cancellation token; `bytesReceived`, `totalBytes`, `speed`,
every chunk record (start, end, downloaded, completed flag, buffered data)
and the merged-blob store are left unchanged by the call itself. -/
theorem c10_cancel_frame (t : Task) :
    (cancel t).state = .interrupted
    ∧ (cancel t).aborted = t.aborted.map (fun _ => true)
    ∧ (cancel t).bytesReceived = t.bytesReceived
    ∧ (cancel t).totalBytes = t.totalBytes
    ∧ (cancel t).speed = t.speed
    ∧ (cancel t).chunkProgress = t.chunkProgress
    ∧ (cancel t).chunks = t.chunks
    ∧ (cancel t).lastSpeedUpdate = t.lastSpeedUpdate
    ∧ (cancel t).lastBytesReceived = t.lastBytesReceived
    ∧ (cancel t).supportsRange = t.supportsRange :=
  ⟨rfl, rfl, rfl, rfl, rfl, rfl, rfl, rfl, rfl, rfl⟩

end DM
